import Mathlib

/-!
Shallow embedding of the FeatureFinderMultiplex TOPP tool
(src/src/topp/FeatureFinderMultiplex.cpp) of this OpenMS tree.

Modelling conventions: C++ `double` values are modelled as exact rationals
(`ℚ`); where the code's control flow depends on IEEE special values (NaN in
the regression code) the type `FP` below is used.  C++ `std::string` values
are modelled as `List Char`.  Unsigned integers are modelled as `Nat`
(matching wrap-free use in the source).  Thrown exceptions are modelled with
`Except`.
-/

namespace FFM

/-- MassPattern is `std::vector<double>`, the list of mass shifts of a multiplet. -/
abbrev MassPattern := List ℚ

/-- Embeds the test that `pat` occurs at the start of `s` (helper for `hasSub`). -/
def isPfx : List Char → List Char → Bool
  | [], _ => true
  | _ :: _, [] => false
  | a :: as, b :: bs => a == b && isPfx as bs

/-- Embeds `s.find(pat) != std::string::npos`: `pat` occurs as a contiguous
substring of `s`. -/
def hasSub (pat : List Char) : List Char → Bool
  | [] => isPfx pat []
  | c :: rest => isPfx pat (c :: rest) || hasSub pat rest

/-- Embeds `boost::split(result, s, boost::is_any_of(delims))`: cut `s` at every
delimiter character, keeping empty fragments (boost keeps them too). -/
def splitAny (delims : List Char) : List Char → List (List Char)
  | [] => [[]]
  | c :: rest =>
    match splitAny delims rest with
    | [] => [[]]
    | chunk :: chunks =>
      if delims.contains c then [] :: chunk :: chunks
      else (c :: chunk) :: chunks

/-- The sample-delimiting brackets of generateMassPatterns_ (line 383):
any of square brackets, parentheses or curly braces. -/
def bracketChars : List Char := ['[', ']', '(', ')', Char.ofNat 123, Char.ofNat 125]

/-- The label separators of generateMassPatterns_ (line 389): comma,
semicolon, colon, space. -/
def sepChars : List Char := [',', ';', ':', ' ']

/-- The string `all_labels` of generateMassPatterns_ (line 407). -/
def allLabels : List Char :=
  "Arg6 Arg10 Lys4 Lys6 Lys8 Dimethyl0 Dimethyl4 Dimethyl6 Dimethyl8 ICPL0 ICPL4 ICPL6 ICPL10".data

/-- Embeds the `label_massshift` map built by getParameters_labels_ with the
default values of getSubsectionDefaults_ (section "labels", lines 261-286).
`std::map::operator[]` yields 0 for keys that were never inserted. -/
def defaultLabelShift (s : List Char) : ℚ :=
  if s = "Arg6".data then 60201290268 / 10000000000
  else if s = "Arg10".data then 100082686 / 10000000
  else if s = "Lys4".data then 40251069836 / 10000000000
  else if s = "Lys6".data then 60201290268 / 10000000000
  else if s = "Lys8".data then 80141988132 / 10000000000
  else if s = "Dimethyl0".data then 280313 / 10000
  else if s = "Dimethyl4".data then 32056407 / 1000000
  else if s = "Dimethyl6".data then 34063117 / 1000000
  else if s = "Dimethyl8".data then 3607567 / 100000
  else if s = "ICPL0".data then 105021464 / 1000000
  else if s = "ICPL4".data then 109046571 / 1000000
  else if s = "ICPL6".data then 111041593 / 1000000
  else if s = "ICPL10".data then 1150667 / 10000
  else 0

/-- The configuration state of TOPPFeatureFinderMultiplex that
generateMassPatterns_ reads: the labels string, `missed_cleavages_`,
`knock_out_` and the label-to-mass-shift map (a member set from parameters,
so kept abstract here; `defaultLabelShift` is its default value). -/
structure Config where
  labels : List Char
  missed_cleavages : Nat
  knock_out : Bool
  labelShift : List Char → ℚ

/-- Embeds `labelling_SILAC` (line 365). -/
def labellingSILAC (labels : List Char) : Bool :=
  hasSub "Arg".data labels || hasSub "Lys".data labels

/-- Embeds `labelling_Dimethyl` (line 366). -/
def labellingDimethyl (labels : List Char) : Bool :=
  hasSub "Dimethyl".data labels

/-- Embeds `labelling_ICPL` (line 367). -/
def labellingICPL (labels : List Char) : Bool :=
  hasSub "ICPL".data labels

/-- Embeds `labelling_none` (line 368): the labels string is empty or equals
one of the literal strings "[]", "()", "\x7b\x7d". -/
def labellingNone (labels : List Char) : Bool :=
  labels.isEmpty || labels == "[]".data || labels == "()".data
    || labels == [Char.ofNat 123, Char.ofNat 125]

/-- The four labelling modes of generateMassPatterns_. -/
inductive Mode where
  | silac
  | dimethyl
  | icpl
  | noLabel
deriving DecidableEq

/-- Embeds the mode booleans of lines 370-373: at most one of the four is
true; `none` here corresponds to the throw at line 377. -/
def modeOf (labels : List Char) : Option Mode :=
  if labellingSILAC labels && !labellingDimethyl labels
      && !labellingICPL labels && !labellingNone labels then some Mode.silac
  else if !labellingSILAC labels && labellingDimethyl labels
      && !labellingICPL labels && !labellingNone labels then some Mode.dimethyl
  else if !labellingSILAC labels && !labellingDimethyl labels
      && labellingICPL labels && !labellingNone labels then some Mode.icpl
  else if !labellingSILAC labels && !labellingDimethyl labels
      && !labellingICPL labels && labellingNone labels then some Mode.noLabel
  else none

/-- Embeds lines 381-392: split the labels string into samples (non-empty
bracket fragments), each further split into label tokens. -/
def parseSamples (labels : List Char) : List (List (List Char)) :=
  ((splitAny bracketChars labels).filter (fun c => !c.isEmpty)).map (splitAny sepChars)

/-- Embeds the loop of lines 408-419: the first label token that is not a
substring of `allLabels`, if any (the code throws InvalidParameter for it). -/
def findUnknownLabel (samples : List (List (List Char))) : Option (List Char) :=
  samples.flatten.find? (fun t => !(hasSub t allLabels))

/-- Embeds `Arg6There + Arg10There` for one label token (lines 445-452). -/
def argThere (t : List Char) : Nat :=
  (if hasSub "Arg6".data t then 1 else 0) + (if hasSub "Arg10".data t then 1 else 0)

/-- Embeds `Lys4There + Lys6There + Lys8There` for one label token (lines 447-455). -/
def lysThere (t : List Char) : Nat :=
  (if hasSub "Lys4".data t then 1 else 0) + (if hasSub "Lys6".data t then 1 else 0)
    + (if hasSub "Lys8".data t then 1 else 0)

/-- Embeds the mass-shift contribution of one label token (line 457):
`ArgPerPeptide * (Arg6There*m[Arg6] + Arg10There*m[Arg10]) +
 LysPerPeptide * (Lys4There*m[Lys4] + Lys6There*m[Lys6] + Lys8There*m[Lys8])`. -/
def silacTokenShift (f : List Char → ℚ) (a l : Nat) (t : List Char) : ℚ :=
  (a : ℚ) * ((if hasSub "Arg6".data t then f "Arg6".data else 0)
             + (if hasSub "Arg10".data t then f "Arg10".data else 0))
  + (l : ℚ) * ((if hasSub "Lys4".data t then f "Lys4".data else 0)
               + (if hasSub "Lys6".data t then f "Lys6".data else 0)
               + (if hasSub "Lys8".data t then f "Lys8".data else 0))

/-- Accumulated `mass_shift` of one sample (loop over its label tokens, line 443-462). -/
def silacSampleShift (f : List Char → ℚ) (a l : Nat) (s : List (List Char)) : ℚ :=
  (s.map (silacTokenShift f a l)).sum

/-- Embeds `goAhead_Arg` (line 460): or over the sample's tokens. -/
def goAheadArg (a : Nat) (s : List (List Char)) : Bool :=
  s.any (fun t => !(decide (a ≠ 0) && decide (argThere t = 0)))

/-- Embeds `goAhead_Lys` (line 461). -/
def goAheadLys (l : Nat) (s : List (List Char)) : Bool :=
  s.any (fun t => !(decide (l ≠ 0) && decide (lysThere t = 0)))

/-- Embeds the `temp` pattern built for one (ArgPerPeptide, LysPerPeptide)
combination (lines 434-468): a leading 0 followed by the accepted sample shifts. -/
def silacTemp (f : List Char → ℚ) (a l : Nat) (samples : List (List (List Char))) :
    MassPattern :=
  0 :: samples.filterMap (fun s =>
    let ms := silacSampleShift f a l s
    if goAheadArg a s && goAheadLys l s && decide (ms ≠ 0) then some ms else none)

/-- Embeds the SILAC enumeration (lines 428-477): loop ArgPerPeptide and
LysPerPeptide from 0 to `missed_cleavages + 1`, keep combinations with
`Arg + Lys ≤ missed_cleavages + 1` whose pattern has more than one entry. -/
def silacPatterns (f : List Char → ℚ) (mc : Nat)
    (samples : List (List (List Char))) : List MassPattern :=
  (List.range (mc + 2)).flatMap (fun a =>
    (List.range (mc + 2)).filterMap (fun l =>
      if a + l ≤ mc + 1 then
        let temp := silacTemp f a l samples
        if 1 < temp.length then some temp else none
      else none))

/-- Embeds the Dimethyl / ICPL enumeration (lines 484-492): for each
`mc' ≤ missed_cleavages` the pattern
`[(mc'+1)*(m[s_i[0]] - m[s_0[0]])]_i` over the samples. -/
def dimPatterns (f : List Char → ℚ) (mc : Nat)
    (samples : List (List (List Char))) : List MassPattern :=
  (List.range (mc + 1)).map (fun k =>
    samples.map (fun s =>
      ((k : ℚ) + 1) * (f (s.headD []) - f ((samples.headD []).headD []))))

/-- The nine knock-out patterns appended for one arity-4 pattern
(lines 511-549), in source order: three triplets then six doublets.
Out-of-range `list[i][j]` accesses (undefined behaviour in C++) are modelled
by `getD` with default 0. -/
def quadSubsets (p : MassPattern) : List MassPattern :=
  [[0, p.getD 2 0 - p.getD 1 0, p.getD 3 0 - p.getD 1 0],
   [0, p.getD 2 0 - p.getD 0 0, p.getD 3 0 - p.getD 0 0],
   [0, p.getD 1 0 - p.getD 0 0, p.getD 2 0 - p.getD 0 0],
   [0, p.getD 1 0],
   [0, p.getD 2 0],
   [0, p.getD 3 0],
   [0, p.getD 2 0 - p.getD 1 0],
   [0, p.getD 3 0 - p.getD 1 0],
   [0, p.getD 3 0 - p.getD 2 0]]

/-- The three knock-out doublets appended for one arity-3 pattern
(lines 560-570), in source order. -/
def tripleSubsets (p : MassPattern) : List MassPattern :=
  [[0, p.getD 1 0],
   [0, p.getD 2 0 - p.getD 1 0],
   [0, p.getD 2 0]]

/-- Embeds the knock-out expansion (lines 505-580): `n` is the size of the
first pattern; for n = 4 and n = 3 the subset patterns of every enumerated
pattern are appended followed by the singleton `[0]`; for n = 2 only the
singleton is appended. -/
def knockOutExpand (ko : Bool) (list : List MassPattern) : List MassPattern :=
  if ko && (list.headD []).length == 4 then list ++ list.flatMap quadSubsets ++ [[0]]
  else if ko && (list.headD []).length == 3 then list ++ list.flatMap tripleSubsets ++ [[0]]
  else if ko && (list.headD []).length == 2 then list ++ [[0]]
  else list

/-- The exceptions generateMassPatterns_ can throw. -/
inductive ToolError where
  | illegalArgument (msg : String)
  | invalidParameter (msg : String)
deriving DecidableEq

/-- Embeds generateMassPatterns_ (lines 361-597): classify the labelling
mode (throw IllegalArgument when none matches), split the labels string,
validate the label tokens (throw InvalidParameter on an unknown one),
enumerate the mass-shift list for the mode, and apply the knock-out
expansion. -/
def generateMassPatterns (cfg : Config) : Except ToolError (List MassPattern) :=
  match modeOf cfg.labels with
  | Option.none =>
    Except.error (ToolError.illegalArgument "Unknown labelling. Neither SILAC, Dimethyl nor ICPL.")
  | Option.some m =>
    match findUnknownLabel (parseSamples cfg.labels) with
    | Option.some t =>
      Except.error (ToolError.invalidParameter ("The label " ++ String.mk t ++ " is unknown."))
    | Option.none =>
      Except.ok (knockOutExpand cfg.knock_out
        (match m with
         | Mode.silac => silacPatterns cfg.labelShift cfg.missed_cleavages (parseSamples cfg.labels)
         | Mode.dimethyl => dimPatterns cfg.labelShift cfg.missed_cleavages (parseSamples cfg.labels)
         | Mode.icpl => dimPatterns cfg.labelShift cfg.missed_cleavages (parseSamples cfg.labels)
         | Mode.noLabel => [[0]]))

/-- The pattern list of a successful run (empty list when an exception was thrown). -/
def genOk (cfg : Config) : List MassPattern :=
  (generateMassPatterns cfg).toOption.getD []

/-- Whether generateMassPatterns_ threw the unknown-labelling IllegalArgument. -/
def isUnknownLabellingError (cfg : Config) : Bool :=
  match generateMassPatterns cfg with
  | Except.error (ToolError.illegalArgument _) => true
  | _ => false

/-- The subscripts `j` with which the knock-out expansion reads `list[i][j]`
for every previously enumerated pattern, as a function of
`n = list[0].size()`:  lines 512-548 read positions 0..3 when n = 4, lines
561-569 read positions 1..2 when n = 3, and n = 2 reads nothing. -/
def koIndices (n : Nat) : List Nat :=
  if n = 4 then [0, 1, 2, 3] else if n = 3 then [1, 2] else []

/-- Embeds `consensus.setQuality(1 - 1/points.size())` (line 795) and
`feature.setOverallQuality(1 - 1/points.size())` (line 814): `points.size()`
is a `size_t`, so the whole expression is evaluated in unsigned integer
arithmetic before being passed to the double-typed setter. -/
def clusterQuality (nPoints : Nat) : Nat :=
  1 - 1 / nPoints

/-- One spectrum of the input MSExperiment, reduced to the fields main_'s
own code inspects: the MS level (for the level filter) and the retention
time (for sorting). -/
structure Spectrum where
  msLevel : Nat
  rt : ℚ

/-- Embeds the MS-level filter of main_ (line 966): erase every spectrum
whose MS level is not 1. -/
def ms1Filter (exp : List Spectrum) : List Spectrum :=
  exp.filter (fun s => s.msLevel == 1)

/-- Embeds the control flow of main_ (lines 935-1318) as visible in this
file: load (external I/O), filter to MS1 spectra, sort, pick peaks
(PeakPickerHiRes, external), generate the mass patterns, run the filtering,
clustering and map generation (external components), and return
EXECUTION_OK, whose numeric value is 0 ("0 success").  There is no
emptiness check anywhere between the MS-level filter and the return: the
only exceptions raised by the code of this file are those of
generateMassPatterns_.  The result carries the filtered spectra, the mass
patterns and the exit code. -/
def mainRun (cfg : Config) (exp : List Spectrum) :
    Except ToolError (List Spectrum × List MassPattern × Nat) :=
  let ms1 := ms1Filter exp
  match generateMassPatterns cfg with
  | Except.error e => Except.error e
  | Except.ok masses => Except.ok (ms1, masses, 0)

/-! The regression / reconciliation code (getPeptideIntensities, lines
627-692, and LinearRegressionWithoutIntercept, lines 865-932) branches on
IEEE NaN, so doubles are modelled there by `FP`: a rational, an infinity
with a sign, or NaN. -/

/-- A double as far as the regression code observes it: an exact rational,
a signed infinity (`true` = negative) or NaN. -/
inductive FP where
  | num (q : ℚ)
  | inf (neg : Bool)
  | nan
deriving DecidableEq

/-- Embeds `boost::math::isnan`. -/
def FP.isnan : FP → Bool
  | FP.nan => true
  | _ => false

/-- IEEE addition on `FP`. -/
def fadd : FP → FP → FP
  | FP.nan, _ => FP.nan
  | _, FP.nan => FP.nan
  | FP.inf s, FP.inf t => if s = t then FP.inf s else FP.nan
  | FP.inf s, FP.num _ => FP.inf s
  | FP.num _, FP.inf t => FP.inf t
  | FP.num a, FP.num b => FP.num (a + b)

/-- IEEE multiplication on `FP`. -/
def fmul : FP → FP → FP
  | FP.nan, _ => FP.nan
  | _, FP.nan => FP.nan
  | FP.inf s, FP.inf t => FP.inf (s != t)
  | FP.inf s, FP.num b => if b = 0 then FP.nan else FP.inf (s != decide (b < 0))
  | FP.num a, FP.inf t => if a = 0 then FP.nan else FP.inf (t != decide (a < 0))
  | FP.num a, FP.num b => FP.num (a * b)

/-- IEEE division on `FP` (signed zeroes are not tracked; the sign of a
division by zero is taken from the numerator). -/
def fdiv : FP → FP → FP
  | FP.nan, _ => FP.nan
  | _, FP.nan => FP.nan
  | FP.num a, FP.num b =>
    if b = 0 then (if a = 0 then FP.nan else FP.inf (decide (a < 0) != decide (b < 0)))
    else FP.num (a / b)
  | FP.inf s, FP.num b => FP.inf (s != decide (b < 0))
  | FP.num _, FP.inf _ => FP.num 0
  | FP.inf _, FP.inf _ => FP.nan

/-- Sum of a list of doubles starting from 0, folded left like the C++
accumulation loops. -/
def sumFP (l : List FP) : FP :=
  l.foldl fadd (FP.num 0)

/-- Embeds LinearRegressionWithoutIntercept: `addData(x, y)` accumulates
`sum_xx += x*x`, `sum_xy += x*y` and counts observations; `getSlope()`
returns NaN when fewer than two observations were added and
`sum_xy/sum_xx` otherwise (lines 882-914). -/
def slopeFP (xs ys : List FP) : FP :=
  if xs.length < 2 then FP.nan
  else fdiv ((xs.zip ys).foldl (fun acc p => fadd acc (fmul p.1 p.2)) (FP.num 0))
            ((xs.zip ys).foldl (fun acc p => fadd acc (fmul p.1 p.1)) (FP.num 0))

/-- Embeds the NaN filter of getPeptideIntensities (lines 644-656): keep the
sample pairs `(light, peptide)` in which neither entry is NaN. -/
def filteredPairs (row0 rowi : List FP) : List (FP × FP) :=
  (row0.zip rowi).filter (fun p => !p.1.isnan && !p.2.isnan)

/-- The ratio (regression slope against the light peptide) and the raw
intensity sum computed for one peptide row (lines 644-661). -/
def ratioAndIntensity (row0 rowi : List FP) : FP × FP :=
  (slopeFP ((filteredPairs row0 rowi).map Prod.fst) ((filteredPairs row0 rowi).map Prod.snd),
   sumFP ((filteredPairs row0 rowi).map Prod.snd))

/-- The regression ratio `ratios[i]` of getPeptideIntensities (line 660):
the slope of peptide row `i` against the light row 0. -/
def ratioOf (rows : List (List FP)) (i : Nat) : FP :=
  (ratioAndIntensity (rows.headD []) (rows.getD i [])).1

/-- The raw intensity sum `intensities[i]` of getPeptideIntensities
(line 661): the sum of row `i` over the non-NaN pairs with row 0. -/
def intensityOf (rows : List (List FP)) (i : Nat) : FP :=
  (ratioAndIntensity (rows.headD []) (rows.getD i [])).2

/-- Embeds getPeptideIntensities (lines 627-692).  The input is one
intensity row per peptide; rows of unequal length raise IllegalArgument.
For each peptide the slope `ratios[i]` and raw sum `intensities[i]` are
computed over the non-NaN pairs, and the corrected intensities are
reconciled by the three-way branch on the number of peptides. -/
def getPeptideIntensities (rows : List (List FP)) : Except ToolError (List FP) :=
  if rows.any (fun r => r.length ≠ (rows.headD []).length) then
    Except.error (ToolError.illegalArgument
      "The profile intensity vectors for each peptide are not of the same size.")
  else if rows.length = 2 then
    Except.ok
      [fdiv (fadd (intensityOf rows 0) (fmul (ratioOf rows 1) (intensityOf rows 1)))
            (fadd (FP.num 1) (fmul (ratioOf rows 1) (ratioOf rows 1))),
       fmul (ratioOf rows 1)
         (fdiv (fadd (intensityOf rows 0) (fmul (ratioOf rows 1) (intensityOf rows 1)))
               (fadd (FP.num 1) (fmul (ratioOf rows 1) (ratioOf rows 1))))]
  else if 2 < rows.length then
    Except.ok (intensityOf rows 0 ::
      (List.range (rows.length - 1)).map
        (fun k => fmul (ratioOf rows (k + 1)) (intensityOf rows 0)))
  else
    Except.ok [intensityOf rows 0]

/-- Reference expression for the claims about the regression: the dot
product `Σ xᵢ·yᵢ` over positionally paired entries. -/
def dotQ (xs ys : List ℚ) : ℚ :=
  ((xs.zip ys).map (fun p => p.1 * p.2)).sum

/-- Reference expression for the fitted ratio of the claims:
`Σ x_p·x_1 / Σ x_1²`. -/
def ratQ (xs ys : List ℚ) : ℚ :=
  dotQ xs ys / dotQ xs xs

/-- The sample pairs with neither entry NaN, as rationals (reference form of
the claims; coincides with `filteredPairs` when no infinities occur). -/
def ratPairs (row0 rowi : List FP) : List (ℚ × ℚ) :=
  (row0.zip rowi).filterMap (fun p =>
    match p with
    | (FP.num a, FP.num b) => some (a, b)
    | _ => none)

/-- A configuration with the given labels string, missed cleavages and
knock-out flag, and the default label masses. -/
def cfgOf (labels : String) (mc : Nat) (ko : Bool) : Config :=
  { labels := labels.data, missed_cleavages := mc, knock_out := ko,
    labelShift := defaultLabelShift }

/-- The tool's default configuration of the algorithm section:
labels "[][Lys8,Arg10]", missed_cleavages 0, knock_out true. -/
def cfgDefault : Config := cfgOf "[][Lys8,Arg10]" 0 true

/-- Four-sample ICPL labelling with knock-out, producing an arity-4 pattern. -/
def cfgICPL4 : Config := cfgOf "[ICPL0][ICPL4][ICPL6][ICPL10]" 0 true

/-- SILAC labelling in which Arg6 and Lys6 (identical default mass shifts)
are both present, with one missed cleavage. -/
def cfgArgLys6 : Config := cfgOf "[][Arg6,Lys6]" 1 false

/-- SILAC labelling whose labelled sample carries Arg6 and Lys8, with one
missed cleavage (spec scenario 6). -/
def cfgArg6Lys8 : Config := cfgOf "[][Arg6,Lys8]" 1 false

/-- SILAC labelling with an Arg-only sample and two Lys-only samples: the
enumerated patterns do not all have the same arity. -/
def cfgMixedArity : Config := cfgOf "[][Arg6][Lys4][Lys8]" 1 false

/-- The labels string "[][]": a sequence of two empty sample sets. -/
def cfgDoubleEmpty : Config := cfgOf "[][]" 0 false

/-- The labels string "[]": exactly one empty sample set. -/
def cfgEmptyPair : Config := cfgOf "[]" 0 true

end FFM

namespace FFM

set_option maxRecDepth 100000

/-- The pattern list generated for "[][Arg6,Lys8]" with one missed cleavage,
evaluated: (Arg,Lys) per peptide = (0,1), (0,2), (1,0), (1,1), (2,0). -/
theorem genOk_cfgArg6Lys8_eq :
    genOk cfgArg6Lys8 =
    [[0, 80141988132 / 10000000000],
     [0, 160283976264 / 10000000000],
     [0, 60201290268 / 10000000000],
     [0, 140343278400 / 10000000000],
     [0, 120402580536 / 10000000000]] := by with_unfolding_all rfl

/-- The pattern list generated for the four-sample ICPL configuration with
knock-out, evaluated: the arity-4 pattern, its three emitted triplets, its
six doublets, and the singleton. -/
theorem genOk_cfgICPL4_eq :
    genOk cfgICPL4 =
    [[0, 4025107 / 1000000, 6020129 / 1000000, 10045236 / 1000000],
     [0, 1995022 / 1000000, 6020129 / 1000000],
     [0, 6020129 / 1000000, 10045236 / 1000000],
     [0, 4025107 / 1000000, 6020129 / 1000000],
     [0, 4025107 / 1000000],
     [0, 6020129 / 1000000],
     [0, 10045236 / 1000000],
     [0, 1995022 / 1000000],
     [0, 6020129 / 1000000],
     [0, 4025107 / 1000000],
     [0]] := by with_unfolding_all rfl

/-- The pattern list generated for "[][Arg6,Lys6]" with one missed cleavage,
evaluated: Arg6 and Lys6 carry the same shift, so patterns repeat. -/
theorem genOk_cfgArgLys6_eq :
    genOk cfgArgLys6 =
    [[0, 60201290268 / 10000000000],
     [0, 120402580536 / 10000000000],
     [0, 60201290268 / 10000000000],
     [0, 120402580536 / 10000000000],
     [0, 120402580536 / 10000000000]] := by with_unfolding_all rfl

/-- The pattern list generated for "[][Arg6][Lys4][Lys8]" with one missed
cleavage, evaluated: the patterns have arities 3, 3, 2, 2. -/
theorem genOk_cfgMixedArity_eq :
    genOk cfgMixedArity =
    [[0, 40251069836 / 10000000000, 80141988132 / 10000000000],
     [0, 80502139672 / 10000000000, 160283976264 / 10000000000],
     [0, 60201290268 / 10000000000],
     [0, 120402580536 / 10000000000]] := by with_unfolding_all rfl

/-- The pattern list generated for the default configuration, evaluated. -/
theorem genOk_cfgDefault_eq :
    genOk cfgDefault =
    [[0, 80141988132 / 10000000000],
     [0, 100082686 / 10000000],
     [0]] := by with_unfolding_all rfl

/-- Helper: every subscript the knock-out expansion uses is below the arity
of the first pattern. -/
theorem koIndices_lt (n : Nat) : ∀ i ∈ koIndices n, i < n := by
  intro i hi
  unfold koIndices at hi
  split_ifs at hi with h4 h3
  · subst h4
    fin_cases hi <;> decide
  · subst h3
    fin_cases hi <;> decide
  · cases hi

/-- Claim C1: the spec states quality = 1 - 1/n in real arithmetic (0.5 for a
two-point cluster), but the source evaluates `1 - 1/points.size()` in size_t
integer arithmetic: a two-point cluster gets quality 1, a one-point cluster
quality 0, and the two-point value differs from the claimed 1 - 1/2. -/
theorem C1_quality_integer_division :
    clusterQuality 2 = 1 ∧ clusterQuality 1 = 0
      ∧ ((clusterQuality 2 : ℚ) ≠ 1 - 1 / 2) := by
  refine ⟨rfl, rfl, ?_⟩
  norm_num [clusterQuality]

/-- Claim C2 (counterexample): with the default configuration, main_'s code
applies the MS-level filter and proceeds; on an input with no spectra at
all, and equally on an input whose only spectrum is MS level 2, no error is
raised and the run returns EXECUTION_OK (0) with the generated pattern
list, contradicting the claimed immediate EmptyInput with non-zero exit. -/
theorem C2_empty_input_returns_ok :
    mainRun cfgDefault [] =
      Except.ok ([], [[0, 80141988132 / 10000000000], [0, 100082686 / 10000000], [0]], 0)
    ∧ mainRun cfgDefault [{ msLevel := 2, rt := 100 }] =
      Except.ok ([], [[0, 80141988132 / 10000000000], [0, 100082686 / 10000000], [0]], 0) := by
  constructor <;> with_unfolding_all rfl

/-- Claim C3 (counterexample): the four-sample ICPL configuration with
knock-out enumerates the arity-4 pattern [0, Δ1, Δ2, Δ3], yet the rebased
triplet of its subset dropping Δ2, namely [0, Δ1, Δ3] =
[0, 4.025107, 10.045236], is not in the output. -/
theorem C3_missing_triplet_subset :
    [0, 4025107 / 1000000, 6020129 / 1000000, 10045236 / 1000000] ∈ genOk cfgICPL4
    ∧ ([0, (4025107 : ℚ) / 1000000, 6020129 / 1000000, 10045236 / 1000000] : MassPattern).length = 4
    ∧ [0, 4025107 / 1000000, 10045236 / 1000000] ∉ genOk cfgICPL4 := by
  rw [genOk_cfgICPL4_eq]
  refine ⟨by simp, rfl, ?_⟩
  norm_num [List.mem_cons]
  exact List.cons_ne_nil _ _

/-- Claim C4 (counterexample): with labels "[][Arg6,Lys6]" (Arg6 and Lys6
have the same default mass shift) and one missed cleavage, the pattern
[0, 6.0201290268] occurs twice in the output: no deduplication happens. -/
theorem C4_duplicate_pattern_exists :
    (genOk cfgArgLys6).count [0, 60201290268 / 10000000000] = 2 := by
  rw [genOk_cfgArgLys6_eq]
  norm_num [List.count_cons]

/-- Claim C5 (counterexample): the labels string "[][]" (a sequence of two
empty sets) is not classified as mode None; generateMassPatterns_ raises the
unknown-labelling IllegalArgument for it and emits no pattern. -/
theorem C5_double_empty_not_none :
    labellingNone cfgDoubleEmpty.labels = false
    ∧ isUnknownLabellingError cfgDoubleEmpty = true
    ∧ genOk cfgDoubleEmpty = [] := by
  exact ⟨by decide, by decide, by decide⟩

/-- Claim C7: for the SILAC sample description "[][Arg6,Lys8]" with
missed_cleavages = 1, the emitted mass shifts include 0, the Arg6 shift
6.0201290268, the Lys8 shift 8.0141988132 and their sum 14.0343278400. -/
theorem C7_silac_arg6_lys8_shifts :
    (0 : ℚ) ∈ (genOk cfgArg6Lys8).flatten
    ∧ ((60201290268 : ℚ) / 10000000000) ∈ (genOk cfgArg6Lys8).flatten
    ∧ ((80141988132 : ℚ) / 10000000000) ∈ (genOk cfgArg6Lys8).flatten
    ∧ ((140343278400 : ℚ) / 10000000000) ∈ (genOk cfgArg6Lys8).flatten := by
  rw [genOk_cfgArg6Lys8_eq]
  refine ⟨by simp, by simp, by simp, by simp⟩

/-- Claim C10: every subscript the knock-out expansion uses on an enumerated
pattern is within bounds provided every pattern is at least as long as the
first one (the bounds-safety precondition); and the precondition is not
automatic: the SILAC configuration "[][Arg6][Lys4][Lys8]" with one missed
cleavage yields a first pattern of arity 3 together with the shorter
pattern [0, 6.0201290268] of arity 2. -/
theorem C10_knockout_access_bounds :
    (∀ l : List MassPattern, (∀ p ∈ l, ((l.headD []).length ≤ p.length)) →
        ∀ i ∈ koIndices (l.headD []).length, ∀ p ∈ l, i < p.length)
    ∧ ((genOk cfgMixedArity).headD []).length = 3
    ∧ [0, 60201290268 / 10000000000] ∈ genOk cfgMixedArity
    ∧ ([0, (60201290268 : ℚ) / 10000000000] : MassPattern).length < 3 := by
  refine ⟨?_, ?_, ?_, by decide⟩
  · intro l hlen i hi p hp
    exact lt_of_lt_of_le (koIndices_lt _ i hi) (hlen p hp)
  · rw [genOk_cfgMixedArity_eq]
    rfl
  · rw [genOk_cfgMixedArity_eq]
    simp

/-- Claim C2 (amended): main_ performs no empty-input check: for every input
experiment, in particular one with no MS1 spectra, and every configuration
the pattern generator accepts, the run raises no error and returns
EXECUTION_OK (0); the spectra handed to the downstream filter are exactly
the MS1 spectra. -/
theorem C2_no_empty_input_check :
    ∀ (cfg : Config) (exp : List Spectrum) (masses : List MassPattern),
      generateMassPatterns cfg = Except.ok masses →
      mainRun cfg exp = Except.ok (ms1Filter exp, masses, 0) := by
  intro cfg exp masses h
  unfold mainRun
  rw [h]

/-- Witness for C2: the amended statement applied to the default
configuration and the empty experiment. -/
theorem C2_no_empty_input_check_witness :
    mainRun cfgDefault [] =
      Except.ok ([], [[0, 80141988132 / 10000000000], [0, 100082686 / 10000000], [0]], 0) :=
  C2_no_empty_input_check cfgDefault []
    [[0, 80141988132 / 10000000000], [0, 100082686 / 10000000], [0]]
    (by with_unfolding_all rfl)

/-- Claim C3 (amended): when the first enumerated pattern has arity 4, the
knock-out expansion emits, for every pattern of the list, exactly the nine
subset patterns computed at lines 511-549 (the three triplets dropping the
first, the second or the fourth entry, and all six doublets, each rebased
to start at 0) together with the singleton [0]; the triplet that drops the
third entry is not among them (see the counterexample). -/
theorem C3_knockout_subsets_emitted :
    ∀ (l : List MassPattern) (p q : MassPattern),
      (l.headD []).length = 4 → p ∈ l →
      (q ∈ quadSubsets p ∨ q = [0]) →
      q ∈ knockOutExpand true l := by
  intro l p q hn hp hq
  have h4 : knockOutExpand true l = l ++ l.flatMap quadSubsets ++ [[0]] := by
    unfold knockOutExpand
    rw [hn]
    rfl
  rw [h4]
  rcases hq with hq | hq
  · exact List.mem_append.mpr
      (Or.inl (List.mem_append.mpr (Or.inr (List.mem_flatMap.mpr ⟨p, hp, hq⟩))))
  · subst hq
    exact List.mem_append.mpr (Or.inr (List.mem_singleton.mpr rfl))

/-- Witness for C3: the amended statement applied to the list holding the
single pattern [0, 1, 2, 3] and its first knock-out doublet [0, 1]. -/
theorem C3_knockout_subsets_emitted_witness :
    [0, (1 : ℚ)] ∈ knockOutExpand true [[0, 1, 2, 3]] :=
  C3_knockout_subsets_emitted [[0, 1, 2, 3]] [0, 1, 2, 3] [0, 1]
    rfl (List.mem_cons_self _ _)
    (Or.inl (by simp [quadSubsets]))

/-- Claim C4 (amended): the generator performs no deduplication: for a
knock-out triplet [0, d, 2d] the two coinciding rebased doublets [0, d]
are both emitted, at positions 1 and 2 of the expansion. -/
theorem C4_knockout_doublet_twice :
    ∀ d : ℚ,
      (knockOutExpand true [[0, d, 2 * d]])[1]? = some [0, d]
      ∧ (knockOutExpand true [[0, d, 2 * d]])[2]? = some [0, d] := by
  intro d
  have hdd : 2 * d - d = d := by ring
  have h3 : knockOutExpand true [[0, d, 2 * d]] =
      [[0, d, 2 * d], [0, d], [0, d], [0, 2 * d], [0]] := by
    simp [knockOutExpand, tripleSubsets, hdd]
  rw [h3]
  exact ⟨rfl, rfl⟩

/-- Witness for C4: the doubled doublet at d = 1. -/
theorem C4_knockout_doublet_twice_witness :
    (knockOutExpand true [[0, 1, 2 * 1]])[1]? = some [0, (1 : ℚ)]
    ∧ (knockOutExpand true [[0, 1, 2 * 1]])[2]? = some [0, (1 : ℚ)] :=
  C4_knockout_doublet_twice 1

/-- Helper: the four strings the labelling-none flag accepts. -/
theorem labellingNone_cases (labels : List Char) (h : labellingNone labels = true) :
    labels = [] ∨ labels = "[]".data ∨ labels = "()".data
      ∨ labels = [Char.ofNat 123, Char.ofNat 125] := by
  simp only [labellingNone, Bool.or_eq_true, List.isEmpty_iff, beq_iff_eq] at h
  tauto

/-- Helper: in mode None with no samples, generateMassPatterns_ returns the
singleton pattern list, for any knock-out flag. -/
theorem gen_noLabel (cfg : Config) (hm : modeOf cfg.labels = some Mode.noLabel)
    (hs : parseSamples cfg.labels = []) :
    generateMassPatterns cfg = Except.ok [[0]] := by
  obtain ⟨labels, mc, ko, f⟩ := cfg
  unfold generateMassPatterns
  rw [hm, hs]
  cases ko <;> rfl

/-- Helper: when no mode matches, generateMassPatterns_ throws the
unknown-labelling IllegalArgument. -/
theorem gen_modeNone (cfg : Config) (hm : modeOf cfg.labels = none) :
    generateMassPatterns cfg =
      Except.error (ToolError.illegalArgument
        "Unknown labelling. Neither SILAC, Dimethyl nor ICPL.") := by
  unfold generateMassPatterns
  rw [hm]

/-- Helper: two base labelling flags set at once leave no matching mode. -/
theorem modeOf_mixed (labels : List Char)
    (h : ((labellingSILAC labels && labellingDimethyl labels)
      || (labellingSILAC labels && labellingICPL labels)
      || (labellingDimethyl labels && labellingICPL labels)) = true) :
    modeOf labels = none := by
  cases hs : labellingSILAC labels <;> cases hd : labellingDimethyl labels <;>
    cases hi : labellingICPL labels <;> simp_all [modeOf]

/-- Helper: no base flag set and the none flag clear leave no matching mode. -/
theorem modeOf_nomatch (labels : List Char)
    (h1 : labellingSILAC labels = false) (h2 : labellingDimethyl labels = false)
    (h3 : labellingICPL labels = false) (h4 : labellingNone labels = false) :
    modeOf labels = none := by
  simp [modeOf, h1, h2, h3, h4]

/-- Claim C5 (amended): the labelling-none flag holds exactly for the empty
string and the three single empty bracket pairs (not for longer sequences
of empty sets such as "[][]", see the counterexample); when it holds, the
singleton pattern list [[0]] is returned; when two of the SILAC, Dimethyl
and ICPL indications occur together, or when nothing matches, the
unknown-labelling IllegalArgument (a configuration error) is thrown. -/
theorem C5_mode_classification :
    (∀ labels : List Char, labellingNone labels = true ↔
        (labels = [] ∨ labels = "[]".data ∨ labels = "()".data
          ∨ labels = [Char.ofNat 123, Char.ofNat 125]))
    ∧ (∀ cfg : Config, labellingNone cfg.labels = true →
        generateMassPatterns cfg = Except.ok [[0]])
    ∧ (∀ cfg : Config,
        ((labellingSILAC cfg.labels && labellingDimethyl cfg.labels)
          || (labellingSILAC cfg.labels && labellingICPL cfg.labels)
          || (labellingDimethyl cfg.labels && labellingICPL cfg.labels)) = true →
        generateMassPatterns cfg =
          Except.error (ToolError.illegalArgument
            "Unknown labelling. Neither SILAC, Dimethyl nor ICPL."))
    ∧ (∀ cfg : Config, labellingSILAC cfg.labels = false →
        labellingDimethyl cfg.labels = false → labellingICPL cfg.labels = false →
        labellingNone cfg.labels = false →
        generateMassPatterns cfg =
          Except.error (ToolError.illegalArgument
            "Unknown labelling. Neither SILAC, Dimethyl nor ICPL.")) := by
  refine ⟨?_, ?_, ?_, ?_⟩
  · intro labels
    constructor
    · exact labellingNone_cases labels
    · intro h
      rcases h with h | h | h | h <;> subst h <;> decide
  · intro cfg h
    rcases labellingNone_cases cfg.labels h with h0 | h0 | h0 | h0 <;>
      exact gen_noLabel cfg (by rw [h0]; decide) (by rw [h0]; decide)
  · intro cfg h
    exact gen_modeNone cfg (modeOf_mixed cfg.labels h)
  · intro cfg h1 h2 h3 h4
    exact gen_modeNone cfg (modeOf_nomatch cfg.labels h1 h2 h3 h4)

/-- Witness for C5: the mode-None branch applied to the configuration with
labels "[]". -/
theorem C5_mode_classification_witness :
    generateMassPatterns cfgEmptyPair = Except.ok [[0]] :=
  C5_mode_classification.2.1 cfgEmptyPair (by decide)

/-- Helper: a successful prefix test means every pattern character occurs in
the string. -/
theorem isPfx_mem (pat : List Char) :
    ∀ s : List Char, isPfx pat s = true → ∀ c ∈ pat, c ∈ s := by
  induction pat with
  | nil => intro s _ c hc; cases hc
  | cons a as ih =>
    intro s h c hc
    cases s with
    | nil => simp [isPfx] at h
    | cons b bs =>
      simp only [isPfx, Bool.and_eq_true, beq_iff_eq] at h
      rcases List.mem_cons.mp hc with hca | hc2
      · subst hca
        rw [h.1]
        exact List.mem_cons_self _ _
      · exact List.mem_cons.mpr (Or.inr (ih bs h.2 c hc2))

/-- Helper: a successful substring test means every pattern character occurs
in the string. -/
theorem hasSub_mem (pat : List Char) :
    ∀ s : List Char, hasSub pat s = true → ∀ c ∈ pat, c ∈ s := by
  intro s
  induction s with
  | nil =>
    intro h c hc
    exact absurd (isPfx_mem pat [] h c hc) (List.not_mem_nil c)
  | cons b bs ih =>
    intro h c hc
    simp only [hasSub, Bool.or_eq_true] at h
    rcases h with h | h
    · exact isPfx_mem pat (b :: bs) h c hc
    · exact List.mem_cons.mpr (Or.inr (ih h c hc))

/-- Helper: splitting always yields at least one fragment. -/
theorem splitAny_ne_nil (delims : List Char) : ∀ s, splitAny delims s ≠ [] := by
  intro s
  cases s with
  | nil => simp [splitAny]
  | cons c rest =>
    cases h : splitAny delims rest with
    | nil => simp [splitAny, h]
    | cons ch chs =>
      simp only [splitAny, h]
      split <;> simp

/-- Helper: a non-delimiter character of the string occurs in some fragment
of the split. -/
theorem splitAny_chunk_of_mem (delims : List Char) (c : Char) (hnd : c ∉ delims) :
    ∀ s : List Char, c ∈ s → ∃ ch ∈ splitAny delims s, c ∈ ch := by
  intro s
  induction s with
  | nil => intro hc; cases hc
  | cons x rest ih =>
    intro hc
    obtain ⟨ch, chs, hsplit⟩ : ∃ ch chs, splitAny delims rest = ch :: chs := by
      cases h : splitAny delims rest with
      | nil => exact absurd h (splitAny_ne_nil delims rest)
      | cons a b => exact ⟨a, b, rfl⟩
    have hrw : splitAny delims (x :: rest) =
        if delims.contains x = true then [] :: ch :: chs else (x :: ch) :: chs := by
      simp only [splitAny, hsplit]
    rcases List.mem_cons.mp hc with hcx | hc2
    · subst hcx
      refine ⟨c :: ch, ?_, List.mem_cons_self _ _⟩
      rw [hrw, if_neg (by simpa using hnd)]
      exact List.mem_cons_self _ _
    · obtain ⟨ch0, hch0, hc0⟩ := ih hc2
      rw [hsplit] at hch0
      by_cases hx : delims.contains x = true
      · refine ⟨ch0, ?_, hc0⟩
        rw [hrw, if_pos hx]
        exact List.mem_cons.mpr (Or.inr hch0)
      · rcases List.mem_cons.mp hch0 with hc1 | hcs
        · subst hc1
          refine ⟨x :: ch0, ?_, List.mem_cons.mpr (Or.inr hc0)⟩
          rw [hrw, if_neg hx]
          exact List.mem_cons_self _ _
        · refine ⟨ch0, ?_, hc0⟩
          rw [hrw, if_neg hx]
          exact List.mem_cons.mpr (Or.inr hcs)

/-- Helper: a string containing a non-bracket character yields at least one
sample. -/
theorem parseSamples_ne_nil (labels : List Char) (c : Char) (hc : c ∈ labels)
    (hnd : c ∉ bracketChars) : parseSamples labels ≠ [] := by
  obtain ⟨ch, hmem, hcch⟩ := splitAny_chunk_of_mem bracketChars c hnd labels hc
  have hne : (!ch.isEmpty) = true := by
    cases ch with
    | nil => cases hcch
    | cons a b => rfl
  intro hnil
  unfold parseSamples at hnil
  rw [List.map_eq_nil_iff] at hnil
  have hin : ch ∈ (splitAny bracketChars labels).filter (fun x => !x.isEmpty) :=
    List.mem_filter.mpr ⟨hmem, hne⟩
  rw [hnil] at hin
  cases hin

/-- Helper: every SILAC pattern starts with the literal 0. -/
theorem silacPatterns_head (f : List Char → ℚ) (mc : Nat)
    (samples : List (List (List Char))) :
    ∀ p ∈ silacPatterns f mc samples, p.headD 1 = 0 := by
  intro p hp
  simp only [silacPatterns, List.mem_flatMap, List.mem_filterMap] at hp
  obtain ⟨a, -, l, -, hl⟩ := hp
  split_ifs at hl with h1 h2
  rw [Option.some.injEq] at hl
  subst hl
  rfl

/-- Helper: every Dimethyl / ICPL pattern of a non-empty sample list starts
with 0 (the first entry is the shift of the first sample against itself). -/
theorem dimPatterns_head (f : List Char → ℚ) (mc : Nat)
    (samples : List (List (List Char))) (hs : samples ≠ []) :
    ∀ p ∈ dimPatterns f mc samples, p.headD 1 = 0 := by
  intro p hp
  simp only [dimPatterns, List.mem_map] at hp
  obtain ⟨k, -, hk⟩ := hp
  subst hk
  cases samples with
  | nil => exact absurd rfl hs
  | cons s0 rest => simp

/-- Helper: the knock-out expansion preserves the leading-zero invariant. -/
theorem knockOutExpand_head (ko : Bool) (l : List MassPattern)
    (h : ∀ q ∈ l, q.headD 1 = 0) :
    ∀ p ∈ knockOutExpand ko l, p.headD 1 = 0 := by
  intro p hp
  unfold knockOutExpand at hp
  split_ifs at hp with h4 h3 h2
  · rcases List.mem_append.mp hp with hp | hp
    · rcases List.mem_append.mp hp with hp | hp
      · exact h p hp
      · obtain ⟨q, -, hq⟩ := List.mem_flatMap.mp hp
        simp only [quadSubsets, List.mem_cons, List.not_mem_nil, or_false] at hq
        rcases hq with rfl | rfl | rfl | rfl | rfl | rfl | rfl | rfl | rfl <;> rfl
    · rw [List.mem_singleton] at hp
      subst hp
      rfl
  · rcases List.mem_append.mp hp with hp | hp
    · rcases List.mem_append.mp hp with hp | hp
      · exact h p hp
      · obtain ⟨q, -, hq⟩ := List.mem_flatMap.mp hp
        simp only [tripleSubsets, List.mem_cons, List.not_mem_nil, or_false] at hq
        rcases hq with rfl | rfl | rfl <;> rfl
    · rw [List.mem_singleton] at hp
      subst hp
      rfl
  · rcases List.mem_append.mp hp with hp | hp
    · exact h p hp
    · rw [List.mem_singleton] at hp
      subst hp
      rfl
  · exact h p hp

/-- Helper: the Dimethyl mode comes with its base flag set. -/
theorem modeOf_dim {labels : List Char} (h : modeOf labels = some Mode.dimethyl) :
    labellingDimethyl labels = true := by
  unfold modeOf at h
  split_ifs at h with h1 h2 h3 h4 <;> simp_all

/-- Helper: the ICPL mode comes with its base flag set. -/
theorem modeOf_icpl {labels : List Char} (h : modeOf labels = some Mode.icpl) :
    labellingICPL labels = true := by
  unfold modeOf at h
  split_ifs at h with h1 h2 h3 h4 <;> simp_all

/-- Claim C6: for every configuration on which generateMassPatterns_
succeeds (any labelling mode, any missed_cleavages, knock_out true or
false, any label-mass map), every pattern of the returned list is non-empty
and starts with 0. -/
theorem C6_patterns_start_at_zero :
    ∀ (cfg : Config) (l : List MassPattern),
      generateMassPatterns cfg = Except.ok l → ∀ p ∈ l, p.headD 1 = 0 := by
  intro cfg l h
  unfold generateMassPatterns at h
  cases hm : modeOf cfg.labels with
  | none =>
    rw [hm] at h
    exact Except.noConfusion h
  | some m =>
    rw [hm] at h
    cases hf : findUnknownLabel (parseSamples cfg.labels) with
    | some t =>
      rw [hf] at h
      exact Except.noConfusion h
    | none =>
      rw [hf] at h
      injection h with h
      subst h
      apply knockOutExpand_head
      intro q hq
      cases m with
      | silac => exact silacPatterns_head _ _ _ q hq
      | dimethyl =>
        have hd := modeOf_dim hm
        have hD : ('D' : Char) ∈ cfg.labels :=
          hasSub_mem _ _ hd 'D' (by decide)
        exact dimPatterns_head _ _ _
          (parseSamples_ne_nil cfg.labels 'D' hD (by decide)) q hq
      | icpl =>
        have hi := modeOf_icpl hm
        have hI : ('I' : Char) ∈ cfg.labels :=
          hasSub_mem _ _ hi 'I' (by decide)
        exact dimPatterns_head _ _ _
          (parseSamples_ne_nil cfg.labels 'I' hI (by decide)) q hq
      | noLabel =>
        rw [List.mem_singleton] at hq
        subst hq
        rfl

/-- Witness for C6: the invariant applied to the SILAC Arg6+Lys8
configuration and the first emitted pattern. -/
theorem C6_patterns_start_at_zero_witness :
    (([0, (80141988132 : ℚ) / 10000000000]) : MassPattern).headD 1 = 0 :=
  C6_patterns_start_at_zero cfgArg6Lys8
    [[0, 80141988132 / 10000000000], [0, 160283976264 / 10000000000],
     [0, 60201290268 / 10000000000], [0, 140343278400 / 10000000000],
     [0, 120402580536 / 10000000000]]
    (by with_unfolding_all rfl)
    [0, 80141988132 / 10000000000] (List.mem_cons_self _ _)

/-- Helper: rows of mapped rationals contain no infinity. -/
theorem noInf_map_num (as : List ℚ) : ∀ b, FP.inf b ∉ as.map FP.num := by
  intro b hmem
  obtain ⟨a, -, ha⟩ := List.mem_map.mp hmem
  cases ha

/-- Helper: on infinity-free rows the NaN filter keeps exactly the rational
pair list. -/
theorem filteredPairs_eq_ratPairs :
    ∀ (row0 rowi : List FP), (∀ b, FP.inf b ∉ row0) → (∀ b, FP.inf b ∉ rowi) →
      filteredPairs row0 rowi =
        (ratPairs row0 rowi).map (fun p => (FP.num p.1, FP.num p.2)) := by
  intro row0
  induction row0 with
  | nil => intro rowi _ _; rfl
  | cons x xs ih =>
    intro rowi h0 hi
    cases rowi with
    | nil => rfl
    | cons y ys =>
      have h0t : ∀ b, FP.inf b ∉ xs := fun b hb => h0 b (List.mem_cons.mpr (Or.inr hb))
      have hit : ∀ b, FP.inf b ∉ ys := fun b hb => hi b (List.mem_cons.mpr (Or.inr hb))
      have hrec := ih ys h0t hit
      cases x with
      | inf b => exact absurd (List.mem_cons_self _ _) (h0 b)
      | nan =>
        have h1 : filteredPairs (FP.nan :: xs) (y :: ys) = filteredPairs xs ys := by
          simp [filteredPairs, List.zip_cons_cons, List.filter_cons, FP.isnan]
        have h2 : ratPairs (FP.nan :: xs) (y :: ys) = ratPairs xs ys := by
          simp [ratPairs, List.zip_cons_cons, List.filterMap_cons]
        rw [h1, h2, hrec]
      | num a =>
        cases y with
        | inf b => exact absurd (List.mem_cons_self _ _) (hi b)
        | nan =>
          have h1 : filteredPairs (FP.num a :: xs) (FP.nan :: ys) = filteredPairs xs ys := by
            simp [filteredPairs, List.zip_cons_cons, List.filter_cons, FP.isnan]
          have h2 : ratPairs (FP.num a :: xs) (FP.nan :: ys) = ratPairs xs ys := by
            simp [ratPairs, List.zip_cons_cons, List.filterMap_cons]
          rw [h1, h2, hrec]
        | num c =>
          have h1 : filteredPairs (FP.num a :: xs) (FP.num c :: ys) =
              (FP.num a, FP.num c) :: filteredPairs xs ys := by
            simp [filteredPairs, List.zip_cons_cons, List.filter_cons, FP.isnan]
          have h2 : ratPairs (FP.num a :: xs) (FP.num c :: ys) =
              (a, c) :: ratPairs xs ys := by
            simp [ratPairs, List.zip_cons_cons, List.filterMap_cons]
          rw [h1, h2, List.map_cons, hrec]

/-- Helper: on rows of mapped rationals the rational pair list is the zip. -/
theorem ratPairs_num : ∀ (as bs : List ℚ),
    ratPairs (as.map FP.num) (bs.map FP.num) = as.zip bs := by
  intro as
  induction as with
  | nil => intro bs; rfl
  | cons a as ih =>
    intro bs
    cases bs with
    | nil => rfl
    | cons b bs =>
      have h2 : ratPairs (FP.num a :: as.map FP.num) (FP.num b :: bs.map FP.num) =
          (a, b) :: ratPairs (as.map FP.num) (bs.map FP.num) := by
        simp [ratPairs, List.zip_cons_cons, List.filterMap_cons]
      simp only [List.map_cons, h2, ih bs, List.zip_cons_cons]

/-- Helper: the left fold of IEEE additions over mapped rationals is the
rational sum. -/
theorem foldl_fadd_num (l : List ℚ) : ∀ q : ℚ,
    (l.map FP.num).foldl fadd (FP.num q) = FP.num (q + l.sum) := by
  induction l with
  | nil => intro q; simp
  | cons a as ih =>
    intro q
    simp only [List.map_cons, List.foldl_cons, List.sum_cons]
    show (as.map FP.num).foldl fadd (fadd (FP.num q) (FP.num a)) = FP.num (q + (a + as.sum))
    rw [show fadd (FP.num q) (FP.num a) = FP.num (q + a) from rfl, ih (q + a), add_assoc]

/-- Helper: sumFP over mapped rationals is the rational sum. -/
theorem sumFP_num (l : List ℚ) : sumFP (l.map FP.num) = FP.num l.sum := by
  unfold sumFP
  rw [foldl_fadd_num l 0, zero_add]

/-- Helper: the sum_xx accumulation of the regression over mapped pairs. -/
theorem foldl_sq_num (ps : List (ℚ × ℚ)) : ∀ q : ℚ,
    (ps.map (fun p => (FP.num p.1, FP.num p.2))).foldl
        (fun acc p => fadd acc (fmul p.1 p.1)) (FP.num q)
      = FP.num (q + (ps.map (fun p => p.1 * p.1)).sum) := by
  induction ps with
  | nil => intro q; simp
  | cons p ps ih =>
    intro q
    simp only [List.map_cons, List.foldl_cons, List.sum_cons]
    show (ps.map (fun p => (FP.num p.1, FP.num p.2))).foldl
        (fun acc p => fadd acc (fmul p.1 p.1)) (fadd (FP.num q) (fmul (FP.num p.1) (FP.num p.1)))
      = FP.num (q + (p.1 * p.1 + (ps.map (fun p => p.1 * p.1)).sum))
    rw [show fadd (FP.num q) (fmul (FP.num p.1) (FP.num p.1)) = FP.num (q + p.1 * p.1) from rfl,
      ih (q + p.1 * p.1), add_assoc]

/-- Helper: the sum_xy accumulation of the regression over mapped pairs. -/
theorem foldl_xy_num (ps : List (ℚ × ℚ)) : ∀ q : ℚ,
    (ps.map (fun p => (FP.num p.1, FP.num p.2))).foldl
        (fun acc p => fadd acc (fmul p.1 p.2)) (FP.num q)
      = FP.num (q + (ps.map (fun p => p.1 * p.2)).sum) := by
  induction ps with
  | nil => intro q; simp
  | cons p ps ih =>
    intro q
    simp only [List.map_cons, List.foldl_cons, List.sum_cons]
    show (ps.map (fun p => (FP.num p.1, FP.num p.2))).foldl
        (fun acc p => fadd acc (fmul p.1 p.2)) (fadd (FP.num q) (fmul (FP.num p.1) (FP.num p.2)))
      = FP.num (q + (p.1 * p.2 + (ps.map (fun p => p.1 * p.2)).sum))
    rw [show fadd (FP.num q) (fmul (FP.num p.1) (FP.num p.2)) = FP.num (q + p.1 * p.2) from rfl,
      ih (q + p.1 * p.2), add_assoc]

/-- Helper: a vanishing sum of squares forces every product with the same
first components to vanish. -/
theorem sum_sq_zero (ps : List (ℚ × ℚ)) (h : (ps.map (fun p => p.1 * p.1)).sum = 0) :
    (ps.map (fun p => p.1 * p.2)).sum = 0 := by
  induction ps with
  | nil => rfl
  | cons p ps ih =>
    simp only [List.map_cons, List.sum_cons] at h ⊢
    have hsum : 0 ≤ (ps.map (fun p => p.1 * p.1)).sum := by
      apply List.sum_nonneg
      intro x hx
      obtain ⟨q, -, hq⟩ := List.mem_map.mp hx
      subst hq
      exact mul_self_nonneg _
    have hp1 : p.1 * p.1 = 0 := le_antisymm (by linarith) (mul_self_nonneg _)
    have hp0 : p.1 = 0 := mul_self_eq_zero.mp hp1
    have hps : (ps.map (fun p => p.1 * p.1)).sum = 0 := by linarith
    rw [hp0, ih hps, zero_mul, add_zero]

/-- Helper: IEEE addition of finite values is the rational addition. -/
theorem fadd_num (a b : ℚ) : fadd (FP.num a) (FP.num b) = FP.num (a + b) := rfl

/-- Helper: IEEE multiplication of finite values is the rational product. -/
theorem fmul_num (a b : ℚ) : fmul (FP.num a) (FP.num b) = FP.num (a * b) := rfl

/-- Helper: IEEE division of finite values with a non-zero divisor is the
rational division. -/
theorem fdiv_num (a b : ℚ) (hb : b ≠ 0) : fdiv (FP.num a) (FP.num b) = FP.num (a / b) := by
  simp [fdiv, hb]

/-- Helper: the regression slope over mapped rational columns, with the
NaN outcomes of too few points and of a vanishing denominator. -/
theorem slopeFP_mapped (ps : List (ℚ × ℚ)) :
    slopeFP (ps.map (fun p => FP.num p.1)) (ps.map (fun p => FP.num p.2)) =
      if ps.length < 2 then FP.nan
      else if (ps.map (fun p => p.1 * p.1)).sum = 0 then FP.nan
      else FP.num ((ps.map (fun p => p.1 * p.2)).sum / (ps.map (fun p => p.1 * p.1)).sum) := by
  unfold slopeFP
  rw [List.zip_map', List.length_map]
  rw [foldl_sq_num ps 0, foldl_xy_num ps 0, zero_add, zero_add]
  by_cases h2 : ps.length < 2
  · rw [if_pos h2, if_pos h2]
  · rw [if_neg h2, if_neg h2]
    by_cases hz : (ps.map (fun p => p.1 * p.1)).sum = 0
    · rw [if_pos hz, hz, sum_sq_zero ps hz]
      rfl
    · rw [if_neg hz]
      exact fdiv_num _ _ hz

/-- Helper: the ratio and intensity of one peptide row against the light
row, for infinity-free rows, characterised over the rational pair list. -/
theorem ratioAndIntensity_eq (row0 rowi : List FP)
    (h0 : ∀ b, FP.inf b ∉ row0) (hi : ∀ b, FP.inf b ∉ rowi) :
    ratioAndIntensity row0 rowi =
      ((if (ratPairs row0 rowi).length < 2 then FP.nan
        else if ((ratPairs row0 rowi).map (fun p => p.1 * p.1)).sum = 0 then FP.nan
        else FP.num (((ratPairs row0 rowi).map (fun p => p.1 * p.2)).sum /
          ((ratPairs row0 rowi).map (fun p => p.1 * p.1)).sum)),
       FP.num ((ratPairs row0 rowi).map Prod.snd).sum) := by
  unfold ratioAndIntensity
  rw [filteredPairs_eq_ratPairs row0 rowi h0 hi]
  have hfst : ((ratPairs row0 rowi).map (fun p => (FP.num p.1, FP.num p.2))).map Prod.fst
      = (ratPairs row0 rowi).map (fun p => FP.num p.1) := by
    simp [List.map_map, Function.comp]
  have hsnd : ((ratPairs row0 rowi).map (fun p => (FP.num p.1, FP.num p.2))).map Prod.snd
      = (ratPairs row0 rowi).map (fun p => FP.num p.2) := by
    simp [List.map_map, Function.comp]
  rw [hfst, hsnd, slopeFP_mapped]
  have hnum : (ratPairs row0 rowi).map (fun p => FP.num p.2)
      = ((ratPairs row0 rowi).map Prod.snd).map FP.num := by
    simp [List.map_map, Function.comp]
  rw [hnum, sumFP_num]

/-- Helper: mapping a function of the first components over a zip of lists
of matching length. -/
theorem zip_fst_map {β : Type} (as bs : List ℚ) (h : as.length ≤ bs.length) (f : ℚ → β) :
    (as.zip bs).map (fun p => f p.1) = as.map f := by
  have h1 : (as.zip bs).map (fun p => f p.1) = ((as.zip bs).map Prod.fst).map f := by
    simp [List.map_map, Function.comp]
  rw [h1, List.map_fst_zip as bs h]

/-- Helper: mapping over the zip of a list with itself. -/
theorem zip_self_map {β : Type} (f : ℚ × ℚ → β) :
    ∀ as : List ℚ, (as.zip as).map f = as.map (fun a => f (a, a)) := by
  intro as
  induction as with
  | nil => rfl
  | cons a as ih => simp only [List.zip_cons_cons, List.map_cons, ih]

/-- Helper: the self dot product is the sum of squares. -/
theorem dotQ_self (as : List ℚ) : dotQ as as = (as.map (fun a => a * a)).sum := by
  unfold dotQ
  rw [zip_self_map]

/-- Helper: the regression slope of two finite peptide rows with enough data
and a non-degenerate light column equals the claim's ratio. -/
theorem slope_rows_num (as bs : List ℚ) (hlen : as.length = bs.length)
    (h2 : 2 ≤ as.length) (hzz : dotQ as as ≠ 0) :
    (ratioAndIntensity (as.map FP.num) (bs.map FP.num)).1 = FP.num (ratQ as bs) := by
  rw [ratioAndIntensity_eq _ _ (noInf_map_num as) (noInf_map_num bs)]
  simp only [ratPairs_num]
  have hl : (as.zip bs).length = as.length := by
    rw [List.length_zip, hlen, Nat.min_self]
  have hsq : ((as.zip bs).map (fun p => p.1 * p.1)).sum = dotQ as as := by
    rw [show (fun p : ℚ × ℚ => p.1 * p.1) = (fun p : ℚ × ℚ => (fun a => a * a) p.1) from rfl,
      zip_fst_map as bs (le_of_eq hlen) (fun a => a * a), ← dotQ_self]
  rw [hsq, hl, if_neg (by omega), if_neg hzz]
  rfl

/-- Helper: the raw intensity sum of a finite peptide row against a finite
light row of at least the same length is its rational sum. -/
theorem intensity_rows_num (as bs : List ℚ) (hlen : bs.length ≤ as.length) :
    (ratioAndIntensity (as.map FP.num) (bs.map FP.num)).2 = FP.num bs.sum := by
  rw [ratioAndIntensity_eq _ _ (noInf_map_num as) (noInf_map_num bs)]
  simp only [ratPairs_num]
  rw [List.map_snd_zip as bs hlen]

/-- Helper: an index loop over a list expressed through getD is the map. -/
theorem range_map_getD {α β : Type} (rest : List α) (d : α) (f : α → β) :
    (List.range rest.length).map (fun k => f (rest.getD k d)) = rest.map f := by
  induction rest with
  | nil => rfl
  | cons r rs ih =>
    rw [List.length_cons, List.range_succ_eq_map, List.map_cons, List.map_map]
    have h1 : ((fun k => f ((r :: rs).getD k d)) ∘ Nat.succ) = fun k => f (rs.getD k d) := by
      funext k
      rfl
    rw [h1, ih]
    rfl

/-- Claim C9: for each peptide row, the fitted ratio is the slope
`Σ x_p·x_1 / Σ x_1²` computed exactly over the sample pairs in which neither
the light value nor the peptide value is NaN; when fewer than two such
pairs exist, or the denominator `Σ x_1²` vanishes, the slope is NaN (the
division 0/0 of getSlope) rather than an error.  Rows are assumed free of
infinities, which the tool's finite spline intensities satisfy. -/
theorem C9_regression_slope :
    ∀ (row0 rowi : List FP), (∀ b, FP.inf b ∉ row0) → (∀ b, FP.inf b ∉ rowi) →
      (ratioAndIntensity row0 rowi).1 =
        if (ratPairs row0 rowi).length < 2 then FP.nan
        else if dotQ ((ratPairs row0 rowi).map Prod.fst) ((ratPairs row0 rowi).map Prod.fst) = 0
          then FP.nan
        else FP.num (ratQ ((ratPairs row0 rowi).map Prod.fst)
          ((ratPairs row0 rowi).map Prod.snd)) := by
  intro row0 rowi h0 hi
  rw [ratioAndIntensity_eq row0 rowi h0 hi]
  have hxx : dotQ ((ratPairs row0 rowi).map Prod.fst) ((ratPairs row0 rowi).map Prod.fst)
      = ((ratPairs row0 rowi).map (fun p => p.1 * p.1)).sum := by
    unfold dotQ
    rw [List.zip_map', List.map_map]
    rfl
  have hxy : dotQ ((ratPairs row0 rowi).map Prod.fst) ((ratPairs row0 rowi).map Prod.snd)
      = ((ratPairs row0 rowi).map (fun p => p.1 * p.2)).sum := by
    unfold dotQ
    rw [List.zip_map', List.map_map]
    rfl
  unfold ratQ
  rw [hxx, hxy]

/-- Witness for C9: the slope characterisation applied to concrete rows in
which one light entry is NaN, leaving the two pairs (1,2) and (2,4) and the
slope 2. -/
theorem C9_regression_slope_witness :
    (ratioAndIntensity [FP.num 1, FP.num 2, FP.nan] [FP.num 2, FP.num 4, FP.num 5]).1 =
      FP.num 2 := by
  have h := C9_regression_slope [FP.num 1, FP.num 2, FP.nan] [FP.num 2, FP.num 4, FP.num 5]
    (by decide) (by decide)
  rw [h]
  with_unfolding_all rfl

/-- Helper: the size check of getPeptideIntensities passes when all rows
have the length of the first one. -/
theorem sizeCheck_false (rows : List (List FP))
    (h : ∀ r ∈ rows, r.length = (rows.headD []).length) :
    (rows.any fun r => decide (r.length ≠ (rows.headD []).length)) = false := by
  rw [List.any_eq_false]
  intro r hr
  simp [h r hr]

/-- Claim C8: the per-cluster reconciliation of getPeptideIntensities on
finite data: with one peptide the corrected intensity is the raw sum; with
two peptides the corrected intensities are (I1 + r·I2)/(1 + r²) and r times
that value, where r is the fitted ratio; with three or more peptides the
light intensity is kept and every other peptide gets r_p·I1. -/
theorem C8_intensity_reconciliation :
    (∀ as : List ℚ,
      getPeptideIntensities [as.map FP.num] = Except.ok [FP.num as.sum])
    ∧ (∀ as bs : List ℚ, as.length = bs.length → 2 ≤ as.length → dotQ as as ≠ 0 →
      getPeptideIntensities [as.map FP.num, bs.map FP.num] =
        Except.ok [FP.num ((as.sum + ratQ as bs * bs.sum) / (1 + ratQ as bs * ratQ as bs)),
                   FP.num (ratQ as bs *
                     ((as.sum + ratQ as bs * bs.sum) / (1 + ratQ as bs * ratQ as bs)))])
    ∧ (∀ (as : List ℚ) (rest : List (List ℚ)), 2 ≤ rest.length →
        (∀ r ∈ rest, r.length = as.length) → 2 ≤ as.length → dotQ as as ≠ 0 →
      getPeptideIntensities ((as :: rest).map (List.map FP.num)) =
        Except.ok (FP.num as.sum :: rest.map (fun r => FP.num (ratQ as r * as.sum)))) := by
  refine ⟨?_, ?_, ?_⟩
  · intro as
    unfold getPeptideIntensities
    rw [if_neg (by simp), if_neg (by simp), if_neg (by simp)]
    unfold intensityOf
    show Except.ok [(ratioAndIntensity (as.map FP.num) (as.map FP.num)).2] = _
    rw [intensity_rows_num as as le_rfl]
  · intro as bs hlen h2 hzz
    unfold getPeptideIntensities
    rw [if_neg (by simp [hlen]), if_pos (by simp)]
    unfold ratioOf intensityOf
    simp only [List.headD_cons, List.getD_cons_zero, List.getD_cons_succ]
    rw [slope_rows_num as bs hlen h2 hzz, intensity_rows_num as as le_rfl,
      intensity_rows_num as bs (le_of_eq hlen.symm)]
    have hden : (1 : ℚ) + ratQ as bs * ratQ as bs ≠ 0 := by
      have hq := mul_self_nonneg (ratQ as bs)
      intro hcon
      nlinarith
    simp only [fmul_num, fadd_num]
    rw [fdiv_num _ _ hden]
    simp only [fmul_num]
  · intro as rest h2r hlenr h2 hzz
    have hszall : ∀ r ∈ (as :: rest).map (List.map FP.num),
        r.length = (((as :: rest).map (List.map FP.num)).headD []).length := by
      intro r hr
      simp only [List.map_cons, List.headD_cons, List.length_map]
      rcases List.mem_cons.mp hr with h | h
      · subst h; simp
      · obtain ⟨r0, hr0, h0⟩ := List.mem_map.mp h
        subst h0
        simp [hlenr r0 hr0]
    unfold getPeptideIntensities
    rw [if_neg (by rw [sizeCheck_false _ hszall]; exact Bool.false_ne_true),
      if_neg (by simp only [List.map_cons, List.length_cons, List.length_map]; omega),
      if_pos (by simp only [List.map_cons, List.length_cons, List.length_map]; omega)]
    have hI0 : intensityOf ((as :: rest).map (List.map FP.num)) 0 = FP.num as.sum := by
      unfold intensityOf
      simp only [List.map_cons, List.headD_cons, List.getD_cons_zero]
      exact intensity_rows_num as as le_rfl
    have hlen1 : ((as :: rest).map (List.map FP.num)).length - 1
        = (rest.map (List.map FP.num)).length := by
      simp
    rw [hI0, hlen1]
    refine congrArg Except.ok (congrArg (List.cons (FP.num as.sum)) ?_)
    have hfun : (fun k => fmul (ratioOf ((as :: rest).map (List.map FP.num)) (k + 1))
          (FP.num as.sum))
        = fun k => (fun row => fmul ((ratioAndIntensity (as.map FP.num) row).1)
            (FP.num as.sum)) ((rest.map (List.map FP.num)).getD k []) := by
      funext k
      unfold ratioOf
      simp only [List.map_cons, List.headD_cons, List.getD_cons_succ]
    rw [hfun, range_map_getD (rest.map (List.map FP.num)) []
      (fun row => fmul ((ratioAndIntensity (as.map FP.num) row).1) (FP.num as.sum)),
      List.map_map]
    apply List.map_congr_left
    intro r hr
    simp only [Function.comp_apply]
    rw [slope_rows_num as r (hlenr r hr).symm h2 hzz]
    rfl

/-- Witness for C8: the three-peptide reconciliation applied to the rows
[1,2], [2,4], [3,6] (ratios 2 and 3 against the light sum 3). -/
theorem C8_intensity_reconciliation_witness :
    getPeptideIntensities ([[1, 2], [2, 4], [3, 6]].map (List.map FP.num)) =
      Except.ok (FP.num ([1, 2] : List ℚ).sum ::
        ([[2, 4], [3, 6]] : List (List ℚ)).map
          (fun r => FP.num (ratQ [1, 2] r * ([1, 2] : List ℚ).sum))) :=
  C8_intensity_reconciliation.2.2 [1, 2] [[2, 4], [3, 6]]
    (by decide) (by decide) (by decide)
    (of_decide_eq_true (by with_unfolding_all rfl))

/-- Witness for C10: the bounds statement applied to a concrete list of two
arity-4 patterns at the largest accessed subscript. -/
theorem C10_knockout_access_bounds_witness :
    (3 : Nat) < ([0, (1 : ℚ), 2, 3] : MassPattern).length :=
  C10_knockout_access_bounds.1 [[0, 9, 9, 9], [0, 1, 2, 3]]
    (by
      intro p hp
      rcases List.mem_cons.mp hp with h | h
      · subst h; decide
      · rw [List.mem_singleton] at h; subst h; decide)
    3 (by decide) [0, 1, 2, 3] (by
      exact List.mem_cons.mpr (Or.inr (List.mem_cons_self _ _)))

end FFM
